import Mathlib

/-!
Verification development for the mloader download orchestration core.

The Lean definitions below are a shallow embedding of the Python sources:
`mloader/manga_loader/decryption.py`, `services.py`, `api.py`,
`manifest.py`, `downloader.py`, `utils.py`, and the exporters.
Bytes are modelled as `Nat` (values below 256), Python dicts as
association lists with unique keys, and machine-independent helpers are
translated function by function.
-/

namespace Mloader

/-! ## XOR decryption (`manga_loader/decryption.py`) -/

/-- Loop body of `_xor_decrypt`: byte `i` becomes `data[i] ^ key[i % len(key)]`.
The running index is threaded explicitly. -/
def xorGo (key : List Nat) : Nat → List Nat → List Nat
  | _, [] => []
  | i, d :: rest => (d ^^^ key.getD (i % key.length) 0) :: xorGo key (i + 1) rest

/-- `_xor_decrypt(data, key)`: `none` models the `ZeroDivisionError` raised by
`index % key_length` when the key is empty. -/
def xorDecrypt (data key : List Nat) : Option (List Nat) :=
  if key.length = 0 then none else some (xorGo key 0 data)

theorem xorGo_length (key : List Nat) : ∀ (i : Nat) (data : List Nat),
    (xorGo key i data).length = data.length := by
  intro i data
  induction data generalizing i with
  | nil => rfl
  | cons d rest ih => simp [xorGo, ih]

theorem xorGo_getD (key : List Nat) : ∀ (data : List Nat) (i j : Nat),
    j < data.length →
    (xorGo key i data).getD j 0 = data.getD j 0 ^^^ key.getD ((i + j) % key.length) 0 := by
  intro data
  induction data with
  | nil => intro i j h; simp at h
  | cons d rest ih =>
    intro i j h
    cases j with
    | zero => simp [xorGo]
    | succ j' =>
      have h' : j' < rest.length := by simpa using Nat.lt_of_succ_lt_succ h
      have hih := ih (i + 1) j' h'
      simp only [xorGo, List.getD_cons_succ]
      rw [hih]
      have harith : i + 1 + j' = i + (j' + 1) := by omega
      rw [harith]

theorem xorGo_involutive (key : List Nat) : ∀ (data : List Nat) (i : Nat),
    xorGo key i (xorGo key i data) = data := by
  intro data
  induction data with
  | nil => intro i; rfl
  | cons d rest ih =>
    intro i
    simp only [xorGo]
    rw [Nat.xor_assoc, Nat.xor_self, Nat.xor_zero, ih]

/-! ## Page export indexing (`services.py`, `PageExportService.export_pages`) -/

/-- Output index of one exported page: a scalar counter value, or a Python
`range(start, stop)` for a DOUBLE page. -/
inductive PageIdx where
  | scalar (n : Nat)
  | rng (start stop : Nat)
  deriving DecidableEq, Repr

/-- One event of the export loop: the exporter was asked to skip the index,
or an image was fetched and added under the index. -/
inductive ExportEvent where
  | skipped (idx : PageIdx)
  | added (idx : PageIdx)
  deriving DecidableEq, Repr

/-- Index carried by an export event. -/
def ExportEvent.idx : ExportEvent → PageIdx
  | .skipped i => i
  | .added i => i

/-- `PageType.DOUBLE.value` from `constants.py`. -/
def doublePageType : Nat := 3

/-- `export_pages`: pages are represented by their `page.type` code. The shared
`count()` iterator is threaded as `n`; a DOUBLE page consumes one extra counter
value via `_double_page_index` and is indexed by `range(n, n + 1)`.
The exporter is abstracted by its `skip_image` predicate; image fetching only
happens on non-skipped pages (an `added` event). -/
def exportPages (skip : PageIdx → Bool) : List Nat → Nat → List ExportEvent
  | [], _ => []
  | t :: rest, n =>
    if t = doublePageType then
      let idx := PageIdx.rng n (n + 1)
      (if skip idx then ExportEvent.skipped idx else ExportEvent.added idx)
        :: exportPages skip rest (n + 2)
    else
      let idx := PageIdx.scalar n
      (if skip idx then ExportEvent.skipped idx else ExportEvent.added idx)
        :: exportPages skip rest (n + 1)

/-- Number of counter values consumed by a page list: 2 for DOUBLE, 1 otherwise. -/
def pageSlots : List Nat → Nat
  | [] => 0
  | t :: rest => (if t = doublePageType then 2 else 1) + pageSlots rest

/-- Index assigned to a page of type `t` when the running counter stands at `m`. -/
def pageIdxAt (t m : Nat) : PageIdx :=
  if t = doublePageType then PageIdx.rng m (m + 1) else PageIdx.scalar m

theorem exportPages_idx_at (sk : PageIdx → Bool) :
    ∀ (pre : List Nat) (t : Nat) (post : List Nat) (n : Nat),
    ((exportPages sk (pre ++ t :: post) n).map ExportEvent.idx).get? pre.length =
      some (pageIdxAt t (n + pageSlots pre)) := by
  intro pre
  induction pre with
  | nil =>
    intro t post n
    by_cases h : t = doublePageType
    · cases hs : sk (PageIdx.rng n (n + 1)) <;>
        simp [exportPages, pageSlots, pageIdxAt, h, hs, ExportEvent.idx]
    · cases hs : sk (PageIdx.scalar n) <;>
        simp [exportPages, pageSlots, pageIdxAt, h, hs, ExportEvent.idx]
  | cons p pre ih =>
    intro t post n
    by_cases h : p = doublePageType
    · rw [List.cons_append]
      rw [show exportPages sk (p :: (pre ++ t :: post)) n =
          (if sk (PageIdx.rng n (n + 1)) then ExportEvent.skipped (PageIdx.rng n (n + 1))
            else ExportEvent.added (PageIdx.rng n (n + 1)))
            :: exportPages sk (pre ++ t :: post) (n + 2) from by simp [exportPages, h]]
      rw [List.map_cons, List.length_cons, List.get?_cons_succ, ih]
      have harith : n + 2 + pageSlots pre = n + pageSlots (p :: pre) := by
        simp only [pageSlots, if_pos h]
        omega
      rw [harith]
    · rw [List.cons_append]
      rw [show exportPages sk (p :: (pre ++ t :: post)) n =
          (if sk (PageIdx.scalar n) then ExportEvent.skipped (PageIdx.scalar n)
            else ExportEvent.added (PageIdx.scalar n))
            :: exportPages sk (pre ++ t :: post) (n + 1) from by simp [exportPages, h]]
      rw [List.map_cons, List.length_cons, List.get?_cons_succ, ih]
      have harith : n + 1 + pageSlots pre = n + pageSlots (p :: pre) := by
        simp only [pageSlots, if_neg h]
        omega
      rw [harith]

theorem eventIdx_if (c : Bool) (i : PageIdx) :
    (if c then ExportEvent.skipped i else ExportEvent.added i).idx = i := by
  cases c <;> rfl

/-- C9: XOR decryption is exact and self-inverse: for every byte string and
every non-empty key, `_xor_decrypt` succeeds and returns output with
`output[i] = input[i] XOR key[i % len(key)]` at every index, and applying it
twice with the same key restores the original bytes. -/
theorem xor_decrypt_exact_and_involutive (data key : List Nat) (hk : key ≠ []) :
    xorDecrypt data key = some (xorGo key 0 data) ∧
    (xorGo key 0 data).length = data.length ∧
    (∀ i, i < data.length →
      (xorGo key 0 data).getD i 0 = data.getD i 0 ^^^ key.getD (i % key.length) 0) ∧
    xorDecrypt (xorGo key 0 data) key = some data := by
  have hlen : key.length ≠ 0 := fun h => hk (List.length_eq_zero.mp h)
  refine ⟨?_, xorGo_length key 0 data, ?_, ?_⟩
  · simp [xorDecrypt, hlen]
  · intro i hi
    simpa using xorGo_getD key data 0 i hi
  · simp [xorDecrypt, hlen, xorGo_involutive]

/-- Witness: decrypting `bytes([0x41, 0x42])` twice with key `[7]` restores the
original bytes. -/
theorem xor_decrypt_exact_and_involutive_witness :
    xorDecrypt (xorGo [7] 0 [65, 66]) [7] = some [65, 66] :=
  (xor_decrypt_exact_and_involutive [65, 66] [7] (by decide)).2.2.2

/-- C8: the page export operation assigns indices from a running counter
starting at 0; a page preceded by pages consuming `pageSlots pre` counter
values is exported under `range(start, start + 1)` when its layout type is
DOUBLE (consuming two counter values) and under the scalar counter value
otherwise; in particular pages typed [single, double, single] produce exactly
the indices `[0, range(1, 2), 3]`, independently of the exporter's skip
decisions. -/
theorem export_pages_double_page_indexing :
    (∀ (sk : PageIdx → Bool) (pre : List Nat) (t : Nat) (post : List Nat),
      ((exportPages sk (pre ++ t :: post) 0).map ExportEvent.idx).get? pre.length =
        some (pageIdxAt t (pageSlots pre))) ∧
    (∀ sk : PageIdx → Bool,
      (exportPages sk [0, doublePageType, 0] 0).map ExportEvent.idx =
        [PageIdx.scalar 0, PageIdx.rng 1 2, PageIdx.scalar 3]) := by
  constructor
  · intro sk pre t post
    simpa using exportPages_idx_at sk pre t post 0
  · intro sk
    simp [exportPages, doublePageType, eventIdx_if]

/-! ## LRU caches (`manga_loader/api.py`, `APILoaderMixin`) -/

/-- A per-instance API cache: an `OrderedDict` modelled as an association list,
front = least recently used, back = most recently used. -/
abbrev Cache (α : Type) : Type := List (String × α)

/-- `_viewer_cache_max_size` default. -/
def viewerCacheMaxSize : Nat := 512

/-- `_title_cache_max_size` default. -/
def titleCacheMaxSize : Nat := 256

/-- Keys of the cache in LRU order. -/
def cacheKeys {α : Type} (c : Cache α) : List String := c.map Prod.fst

/-- `key in cache` / `cache[key]` membership lookup. -/
def cacheLookup {α : Type} (c : Cache α) (k : String) : Option α :=
  (List.find? (fun p => p.1 == k) c).map Prod.snd

/-- `_viewer_cache_get` / `_title_cache_get`: on a hit, `move_to_end` the key
and return the value; on a miss return `None` and leave the cache unchanged. -/
def cacheGet {α : Type} (c : Cache α) (k : String) : Option α × Cache α :=
  match cacheLookup c k with
  | none => (none, c)
  | some v => (some v, List.filter (fun p => !(p.1 == k)) c ++ [(k, v)])

/-- The `while len(cache) > max_size: cache.popitem(last=False)` eviction
loop: drop least-recently-used entries from the front until within bounds. -/
def cacheEvict {α : Type} (m : Nat) : Cache α → Cache α
  | [] => []
  | x :: t => if (x :: t).length ≤ m then x :: t else cacheEvict m t

/-- `_viewer_cache_set` / `_title_cache_set`: `cache[key] = value`, then
`move_to_end(key)` (net effect: drop any existing binding and append at the
most-recently-used end), then evict beyond the maximum size. -/
def cacheSet {α : Type} (c : Cache α) (k : String) (v : α) (m : Nat) : Cache α :=
  cacheEvict m (List.filter (fun p => !(p.1 == k)) c ++ [(k, v)])

/-- One cache operation of the public API surface. -/
inductive CacheOp (α : Type) where
  | get (k : String)
  | set (k : String) (v : α)

/-- Apply one operation against a cache bounded by `m`. -/
def applyOp {α : Type} (m : Nat) (c : Cache α) : CacheOp α → Cache α
  | .get k => (cacheGet c k).2
  | .set k v => cacheSet c k v m

/-- Apply a whole sequence of get/set operations. -/
def applyOps {α : Type} (m : Nat) (ops : List (CacheOp α)) (c : Cache α) : Cache α :=
  ops.foldl (applyOp m) c

/-- Insert a list of keys in order (the N+1-distinct-inserts scenario). -/
def insertAll {α : Type} (valOf : String → α) (m : Nat) (ks : List String)
    (c : Cache α) : Cache α :=
  ks.foldl (fun acc k => cacheSet acc k (valOf k) m) c

theorem cacheLookup_cons_of_eq {α : Type} (x : String × α) (t : Cache α)
    (k : String) (h : x.1 = k) : cacheLookup (x :: t) k = some x.2 := by
  unfold cacheLookup
  rw [List.find?_cons_of_pos _ (by simpa using h)]
  rfl

theorem cacheLookup_cons_of_ne {α : Type} (x : String × α) (t : Cache α)
    (k : String) (h : x.1 ≠ k) : cacheLookup (x :: t) k = cacheLookup t k := by
  unfold cacheLookup
  rw [List.find?_cons_of_neg _ (by simpa using h)]

theorem cacheEvict_eq_drop {α : Type} (m : Nat) :
    ∀ c : Cache α, cacheEvict m c = c.drop (c.length - m) := by
  intro c
  induction c with
  | nil => simp [cacheEvict]
  | cons x t ih =>
    by_cases h : (x :: t).length ≤ m
    · have h0 : (x :: t).length - m = 0 := by omega
      simp only [cacheEvict, if_pos h, h0, List.drop_zero]
    · have hlen : (x :: t).length - m = (t.length - m) + 1 := by
        simp only [List.length_cons]
        simp only [List.length_cons] at h
        omega
      simp only [cacheEvict, if_neg h, hlen, List.drop_succ_cons, ih]

theorem cacheEvict_of_le {α : Type} (m : Nat) (c : Cache α) (h : c.length ≤ m) :
    cacheEvict m c = c := by
  rw [cacheEvict_eq_drop]
  have : c.length - m = 0 := by omega
  simp [this]

theorem cacheEvict_length {α : Type} (m : Nat) (c : Cache α) :
    (cacheEvict m c).length = min c.length m := by
  rw [cacheEvict_eq_drop]
  simp [List.length_drop]
  omega

theorem cacheFilter_of_not_mem {α : Type} {c : Cache α} {k : String}
    (h : k ∉ cacheKeys c) : List.filter (fun p => !(p.1 == k)) c = c := by
  induction c with
  | nil => rfl
  | cons x t ih =>
    simp only [cacheKeys, List.map_cons, List.mem_cons] at h
    push_neg at h
    have hx : (x.1 == k) = false := by
      simpa using fun he => h.1 he.symm
    simp only [List.filter_cons, hx]
    simp [ih (by simpa [cacheKeys] using h.2)]

theorem cacheFilter_cons_of_eq {α : Type} (x : String × α) (t : Cache α)
    (k : String) (h : x.1 = k) :
    List.filter (fun p => !(p.1 == k)) (x :: t) =
      List.filter (fun p => !(p.1 == k)) t := by
  have hb : ((fun p : String × α => !(p.1 == k)) x) = false := by simpa using h
  simp [List.filter_cons, hb]

theorem cacheFilter_cons_of_ne {α : Type} (x : String × α) (t : Cache α)
    (k : String) (h : x.1 ≠ k) :
    List.filter (fun p => !(p.1 == k)) (x :: t) =
      x :: List.filter (fun p => !(p.1 == k)) t := by
  have hb : ((fun p : String × α => !(p.1 == k)) x) = true := by simpa using h
  simp [List.filter_cons, hb]

theorem cacheLookup_filter_ne {α : Type} (c : Cache α) (k k' : String)
    (h : k' ≠ k) :
    cacheLookup (List.filter (fun p => !(p.1 == k)) c) k' = cacheLookup c k' := by
  induction c with
  | nil => rfl
  | cons x t ih =>
    by_cases hx : x.1 = k
    · have hxk' : x.1 ≠ k' := fun he => h (he.symm.trans hx)
      rw [cacheFilter_cons_of_eq x t k hx, cacheLookup_cons_of_ne x t k' hxk', ih]
    · rw [cacheFilter_cons_of_ne x t k hx]
      by_cases hk' : x.1 = k'
      · rw [cacheLookup_cons_of_eq _ _ k' hk', cacheLookup_cons_of_eq x t k' hk']
      · rw [cacheLookup_cons_of_ne _ _ k' hk', cacheLookup_cons_of_ne x t k' hk', ih]

theorem cacheLookup_append_ne {α : Type} (l : Cache α) (k k' : String) (v : α)
    (h : k' ≠ k) : cacheLookup (l ++ [(k, v)]) k' = cacheLookup l k' := by
  induction l with
  | nil =>
    have hk : ((k, v) : String × α).1 ≠ k' := fun he => h he.symm
    rw [List.nil_append, cacheLookup_cons_of_ne _ _ k' hk]
  | cons x t ih =>
    by_cases hx : x.1 = k'
    · rw [List.cons_append, cacheLookup_cons_of_eq _ _ k' hx,
        cacheLookup_cons_of_eq x t k' hx]
    · rw [List.cons_append, cacheLookup_cons_of_ne _ _ k' hx,
        cacheLookup_cons_of_ne x t k' hx, ih]

theorem cacheLookup_filter_length {α : Type} {c : Cache α} {k : String} {v : α}
    (hnd : (cacheKeys c).Nodup) (hl : cacheLookup c k = some v) :
    (List.filter (fun p => !(p.1 == k)) c).length + 1 = c.length := by
  induction c with
  | nil => simp [cacheLookup] at hl
  | cons x t ih =>
    simp only [cacheKeys, List.map_cons, List.nodup_cons] at hnd
    by_cases hx : x.1 = k
    · have hknot : k ∉ cacheKeys t := by
        intro hk
        exact hnd.1 (by simpa [cacheKeys, hx] using hk)
      rw [cacheFilter_cons_of_eq x t k hx, cacheFilter_of_not_mem hknot]
      simp
    · have hl' : cacheLookup t k = some v := by
        rw [cacheLookup_cons_of_ne x t k hx] at hl
        exact hl
      have := ih (by simpa [cacheKeys] using hnd.2) hl'
      rw [cacheFilter_cons_of_ne x t k hx]
      simp only [List.length_cons]
      omega

theorem cacheKeys_filter_append_nodup {α : Type} (c : Cache α) (k : String)
    (v : α) (hnd : (cacheKeys c).Nodup) :
    (cacheKeys (List.filter (fun p => !(p.1 == k)) c ++ [(k, v)])).Nodup := by
  have hsub : List.Sublist (List.filter (fun p => !(p.1 == k)) c) c :=
    List.filter_sublist _
  have hkeysub : List.Sublist (cacheKeys (List.filter (fun p => !(p.1 == k)) c))
      (cacheKeys c) := List.Sublist.map Prod.fst hsub
  have hnd' : (cacheKeys (List.filter (fun p => !(p.1 == k)) c)).Nodup :=
    hnd.sublist hkeysub
  have hknot : k ∉ cacheKeys (List.filter (fun p => !(p.1 == k)) c) := by
    intro hk
    simp only [cacheKeys, List.mem_map] at hk
    obtain ⟨p, hp, hpk⟩ := hk
    have := List.of_mem_filter hp
    simp [hpk] at this
  have hkeq : cacheKeys (List.filter (fun p => !(p.1 == k)) c ++ [(k, v)]) =
      cacheKeys (List.filter (fun p => !(p.1 == k)) c) ++ [k] := by
    simp [cacheKeys]
  rw [hkeq]
  refine List.Nodup.append hnd' (List.nodup_singleton k) ?_
  intro a ha hb
  have hak : a = k := by simpa using hb
  exact hknot (hak ▸ ha)

theorem cacheEvict_keys_nodup {α : Type} (m : Nat) (c : Cache α)
    (hnd : (cacheKeys c).Nodup) : (cacheKeys (cacheEvict m c)).Nodup := by
  rw [cacheEvict_eq_drop]
  have : cacheKeys (c.drop (c.length - m)) = (cacheKeys c).drop (c.length - m) := by
    simp [cacheKeys, List.map_drop]
  rw [this]
  exact hnd.sublist (List.drop_sublist _ _)

/-- Invariant maintained by the cache layer: unique keys, bounded size. -/
def CacheInv {α : Type} (m : Nat) (c : Cache α) : Prop :=
  (cacheKeys c).Nodup ∧ c.length ≤ m

theorem applyOp_inv {α : Type} {m : Nat} {c : Cache α} (op : CacheOp α)
    (h : CacheInv m c) : CacheInv m (applyOp m c op) := by
  obtain ⟨hnd, hlen⟩ := h
  cases op with
  | get k =>
    show CacheInv m (cacheGet c k).2
    cases hl : cacheLookup c k with
    | none =>
      simp only [cacheGet, hl]
      exact ⟨hnd, hlen⟩
    | some v =>
      simp only [cacheGet, hl]
      refine ⟨cacheKeys_filter_append_nodup c k v hnd, ?_⟩
      have hfl := cacheLookup_filter_length hnd hl
      simp only [List.length_append, List.length_cons, List.length_nil]
      omega
  | set k v =>
    show CacheInv m (cacheSet c k v m)
    unfold cacheSet
    constructor
    · exact cacheEvict_keys_nodup m _ (cacheKeys_filter_append_nodup c k v hnd)
    · rw [cacheEvict_length]
      omega

theorem applyOps_inv {α : Type} {m : Nat} (ops : List (CacheOp α)) :
    ∀ c : Cache α, CacheInv m c → CacheInv m (applyOps m ops c) := by
  induction ops with
  | nil => intro c h; exact h
  | cons op ops ih =>
    intro c h
    exact ih (applyOp m c op) (applyOp_inv op h)

theorem insertAll_no_evict {α : Type} (valOf : String → α) (m : Nat) :
    ∀ (ks : List String) (acc : Cache α),
      (cacheKeys acc ++ ks).Nodup → acc.length + ks.length ≤ m →
      insertAll valOf m ks acc = acc ++ ks.map (fun k => (k, valOf k)) := by
  intro ks
  induction ks with
  | nil => intro acc _ _; simp [insertAll]
  | cons k ks ih =>
    intro acc hnd hlen
    have hlen' : acc.length + ks.length + 1 ≤ m := by
      simp only [List.length_cons] at hlen
      omega
    have hk : k ∉ cacheKeys acc := by
      intro hk
      rw [List.nodup_append] at hnd
      exact hnd.2.2 hk (List.mem_cons_self k ks)
    have hset : cacheSet acc k (valOf k) m = acc ++ [(k, valOf k)] := by
      unfold cacheSet
      rw [cacheFilter_of_not_mem hk, cacheEvict_of_le]
      simp only [List.length_append, List.length_cons, List.length_nil]
      omega
    have hstep : insertAll valOf m (k :: ks) acc =
        insertAll valOf m ks (cacheSet acc k (valOf k) m) := rfl
    rw [hstep, hset, ih (acc ++ [(k, valOf k)])]
    · simp
    · have hkeys : cacheKeys (acc ++ [(k, valOf k)]) ++ ks =
          cacheKeys acc ++ (k :: ks) := by
        simp [cacheKeys]
      rw [hkeys]
      exact hnd
    · simp only [List.length_append, List.length_cons, List.length_nil]
      omega

theorem cacheSet_full_evicts_lru {α : Type} (c : Cache α) (k : String) (v : α)
    (hnd : (cacheKeys c).Nodup) (hk : k ∉ cacheKeys c) (hne : c ≠ []) :
    cacheSet c k v c.length = c.tail ++ [(k, v)] := by
  unfold cacheSet
  rw [cacheFilter_of_not_mem hk, cacheEvict_eq_drop]
  have hlen : (c ++ [(k, v)]).length - c.length = 1 := by simp
  rw [hlen]
  cases c with
  | nil => exact absurd rfl hne
  | cons x t => simp

theorem cacheLookup_map_of_not_mem {α : Type} (valOf : String → α)
    (ks : List String) (k : String) (h : k ∉ ks) :
    cacheLookup (ks.map fun x => (x, valOf x)) k = none := by
  induction ks with
  | nil => rfl
  | cons x t ih =>
    simp only [List.mem_cons] at h
    push_neg at h
    rw [List.map_cons, cacheLookup_cons_of_ne _ _ k (fun he => h.1 he.symm)]
    exact ih h.2

theorem cacheLookup_map_of_mem {α : Type} (valOf : String → α)
    (ks : List String) (k : String) (h : k ∈ ks) :
    cacheLookup (ks.map fun x => (x, valOf x)) k = some (valOf k) := by
  induction ks with
  | nil => simp at h
  | cons x t ih =>
    by_cases hx : x = k
    · subst hx
      rw [List.map_cons, cacheLookup_cons_of_eq _ _ x rfl]
    · have ht : k ∈ t := by
        rcases List.mem_cons.mp h with h1 | h2
        · exact absurd h1.symm hx
        · exact h2
      rw [List.map_cons, cacheLookup_cons_of_ne _ _ k hx, ih ht]

theorem insertAll_overflow {α : Type} (valOf : String → α) (k0 : String)
    (rest : List String) (hnd : (k0 :: rest).Nodup) :
    insertAll valOf rest.length (k0 :: rest) [] =
      rest.map (fun k => (k, valOf k)) := by
  obtain rfl | ⟨rest', klast, hre⟩ := rest.eq_nil_or_concat
  · show cacheSet [] k0 (valOf k0) 0 = []
    unfold cacheSet cacheEvict
    simp [cacheEvict]
  · rw [List.concat_eq_append] at hre
    subst hre
    have hsplit : (k0 :: (rest' ++ [klast])) = (k0 :: rest') ++ [klast] := by simp
    have hfold : insertAll valOf (rest' ++ [klast]).length (k0 :: (rest' ++ [klast])) [] =
        cacheSet (insertAll valOf (rest' ++ [klast]).length (k0 :: rest') [])
          klast (valOf klast) (rest' ++ [klast]).length := by
      rw [hsplit]
      unfold insertAll
      rw [List.foldl_append]
      rfl
    have hnd' : (cacheKeys ([] : Cache α) ++ (k0 :: rest')).Nodup := by
      have : List.Sublist (k0 :: rest') (k0 :: (rest' ++ [klast])) := by
        refine List.Sublist.cons₂ k0 ?_
        exact List.sublist_append_left rest' [klast]
      simpa [cacheKeys] using hnd.sublist this
    have hfill : insertAll valOf (rest' ++ [klast]).length (k0 :: rest') [] =
        (k0 :: rest').map (fun k => (k, valOf k)) := by
      have := insertAll_no_evict valOf (rest' ++ [klast]).length (k0 :: rest') [] hnd'
        (by simp)
      simpa using this
    have hkeys : cacheKeys ((k0 :: rest').map (fun k => (k, valOf k))) = k0 :: rest' := by
      show List.map Prod.fst ((k0 :: rest').map (fun k => (k, valOf k))) = k0 :: rest'
      rw [List.map_map,
        show (Prod.fst ∘ fun k : String => (k, valOf k)) = id from rfl, List.map_id]
    have hklast : klast ∉ k0 :: rest' := by
      have := hnd
      rw [show (k0 :: (rest' ++ [klast])) = (k0 :: rest') ++ [klast] from by simp,
        List.nodup_append] at this
      intro hmem
      exact this.2.2 hmem (List.mem_singleton_self klast)
    have hlenmap : ((k0 :: rest').map (fun k => (k, valOf k))).length =
        (rest' ++ [klast]).length := by simp
    rw [hfold, hfill]
    rw [← hlenmap]
    rw [cacheSet_full_evicts_lru _ klast (valOf klast)
      (by rw [hkeys]; exact hnd.sublist (List.Sublist.cons₂ k0 (List.sublist_append_left rest' [klast])))
      (by rw [hkeys]; exact hklast)
      (by simp)]
    simp

/-- C7: each per-kind API cache is a strict LRU map: the default caps are 512
viewer entries and 256 title entries; after any sequence of get/set operations
the cache holds at most its configured maximum number of entries; a get of a
present key returns its value, moves it to the most-recently-used position and
leaves all other entries' lookups unchanged; inserting a fresh key into a full
cache evicts exactly the least-recently-used (front) entry; and inserting N+1
distinct keys into a cache of maximum size N leaves exactly the N most recently
inserted keys present, the first (least recently used) key evicted. -/
theorem api_cache_lru_bound_and_eviction :
    (viewerCacheMaxSize = 512 ∧ titleCacheMaxSize = 256) ∧
    (∀ (α : Type) (m : Nat) (ops : List (CacheOp α)),
      (applyOps m ops ([] : Cache α)).length ≤ m) ∧
    (∀ (α : Type) (c : Cache α) (k : String) (v : α),
      (cacheKeys c).Nodup → cacheLookup c k = some v →
      (cacheGet c k).1 = some v ∧
      ((cacheGet c k).2).getLast? = some (k, v) ∧
      ((cacheGet c k).2).length = c.length ∧
      (∀ k', k' ≠ k → cacheLookup (cacheGet c k).2 k' = cacheLookup c k')) ∧
    (∀ (α : Type) (c : Cache α) (k : String) (v : α),
      (cacheKeys c).Nodup → k ∉ cacheKeys c → c ≠ [] →
      cacheSet c k v c.length = c.tail ++ [(k, v)]) ∧
    (∀ (α : Type) (valOf : String → α) (k0 : String) (rest : List String),
      (k0 :: rest).Nodup →
      insertAll valOf rest.length (k0 :: rest) [] =
        rest.map (fun k => (k, valOf k)) ∧
      cacheLookup (insertAll valOf rest.length (k0 :: rest) []) k0 = none ∧
      (∀ k ∈ rest,
        cacheLookup (insertAll valOf rest.length (k0 :: rest) []) k =
          some (valOf k))) := by
  refine ⟨⟨rfl, rfl⟩, ?_, ?_, ?_, ?_⟩
  · intro α m ops
    exact (applyOps_inv ops [] ⟨List.nodup_nil, Nat.zero_le m⟩).2
  · intro α c k v hnd hl
    refine ⟨?_, ?_, ?_, ?_⟩
    · simp [cacheGet, hl]
    · simp only [cacheGet, hl]
      exact List.getLast?_concat _
    · simp only [cacheGet, hl]
      have := cacheLookup_filter_length hnd hl
      simp only [List.length_append, List.length_cons, List.length_nil]
      omega
    · intro k' hk'
      simp only [cacheGet, hl]
      rw [cacheLookup_append_ne _ _ _ _ hk', cacheLookup_filter_ne _ _ _ hk']
  · intro α c k v hnd hk hne
    exact cacheSet_full_evicts_lru c k v hnd hk hne
  · intro α valOf k0 rest hnd
    have hres := insertAll_overflow valOf k0 rest hnd
    refine ⟨hres, ?_, ?_⟩
    · rw [hres]
      exact cacheLookup_map_of_not_mem valOf rest k0 (List.Nodup.not_mem hnd)
    · intro k hkmem
      rw [hres]
      exact cacheLookup_map_of_mem valOf rest k hkmem

/-- Witness: inserting 3 distinct keys into a cache of maximum size 2 evicts
exactly the first key and keeps the 2 most recent keys. -/
theorem api_cache_lru_bound_and_eviction_witness :
    cacheLookup (insertAll (fun _ => (0 : Nat)) 2 ["a", "b", "c"] []) "a" = none ∧
    cacheLookup (insertAll (fun _ => (0 : Nat)) 2 ["a", "b", "c"] []) "c" = some 0 := by
  obtain ⟨-, -, -, -, h5⟩ := api_cache_lru_bound_and_eviction
  have h := h5 Nat (fun _ => 0) "a" ["b", "c"] (by decide)
  exact ⟨h.2.1, h.2.2 "c" (by decide)⟩

/-! ## Filename sanitization (`utils.py`) and exporter naming
(`exporters/exporter_base.py`, `exporters/cbz_exporter.py`) -/

/-- Python regex `\w` over the ASCII inputs in play: alphanumeric or underscore. -/
def isWordChar (c : Char) : Bool := c.isAlphanum || c == '_'

/-- `re.sub(r"[^\w]+", " ", path)`: each maximal run of non-word characters
becomes a single space. The flag records whether the previous character was
part of such a run. -/
def squashNonWord : Bool → List Char → List Char
  | _, [] => []
  | prevNonWord, c :: rest =>
    if isWordChar c then c :: squashNonWord false rest
    else if prevNonWord then squashNonWord true rest
    else ' ' :: squashNonWord true rest

/-- `string.punctuation + " "`, the strip set of `escape_path`. -/
def stripSetChars : List Char :=
  "!\"#$%&()*+,-./:;<=>?@[\\]^_`\x7b|\x7d~ ".toList ++ [Char.ofNat 39]

/-- Membership in the strip set. -/
def inStripSet (c : Char) : Bool := stripSetChars.contains c

/-- `escape_path` from `utils.py`: squash non-word runs to single spaces, then
strip punctuation and spaces from both ends. -/
def escapePath (s : String) : String :=
  String.mk
    ((((squashNonWord false s.toList).dropWhile inStripSet).reverse.dropWhile
      inStripSet).reverse)

/-- Python `str.title()` over ASCII: a letter starts a word (and is uppercased)
exactly when the previous character is not a letter. -/
def pyTitleGo : Bool → List Char → List Char
  | _, [] => []
  | prevCased, c :: rest =>
    if c.isAlpha then (if prevCased then c.toLower else c.toUpper) :: pyTitleGo true rest
    else c :: pyTitleGo false rest

/-- Python `str.title()`. -/
def pyTitle (s : String) : String := String.mk (pyTitleGo false s.toList)

/-- Python `str.strip()` (whitespace strip from both ends). -/
def pyStripWs (l : List Char) : List Char :=
  ((l.dropWhile Char.isWhitespace).reverse.dropWhile Char.isWhitespace).reverse

/-- Digit-string value, `none` unless the list is a non-empty run of digits. -/
def digitsVal (cs : List Char) : Option Nat :=
  if cs.isEmpty then none
  else if cs.all Char.isDigit then
    some (cs.foldl (fun acc c => acc * 10 + (c.toNat - 48)) 0)
  else none

/-- Python `int(str)` on the decimal strings in play: optional surrounding
whitespace, optional sign, then decimal digits. -/
def pyInt (s : String) : Option Int :=
  match pyStripWs s.toList with
  | '-' :: rest => (digitsVal rest).map (fun n => -(n : Int))
  | '+' :: rest => (digitsVal rest).map (fun n => (n : Int))
  | cs => (digitsVal cs).map (fun n => (n : Int))

/-- `chapter_name_to_int` from `utils.py`: strip leading `#`, try `int()`. -/
def chapterNameToInt (name : String) : Option Int :=
  pyInt (String.mk (name.toList.dropWhile (fun c => c == '#')))

/-- Python `str.lower()` over ASCII. -/
def lowerStr (s : String) : String := String.mk (s.toList.map Char.toLower)

/-- Character-list check that `needle` occurs at the start of `hay`. -/
def charsStartWith : List Char → List Char → Bool
  | [], _ => true
  | _ :: _, [] => false
  | n :: ns, h :: hs => n == h && charsStartWith ns hs

/-- Character-list substring occurrence check (Python `in`). -/
def charsHaveSub (needle : List Char) : List Char → Bool
  | [] => needle.isEmpty
  | h :: hs => charsStartWith needle (h :: hs) || charsHaveSub needle hs

/-- `keyword.lower() in text.lower()`. -/
def containsKeyword (text kw : String) : Bool :=
  charsHaveSub (lowerStr kw).toList (lowerStr text).toList

/-- `_contains_keywords` from `utils.py`. -/
def containsKeywords (text : String) (kws : List String) : Bool :=
  kws.all (containsKeyword text)

/-- `is_oneshot` from `utils.py`. -/
def isOneshot (name sub : String) : Bool :=
  match chapterNameToInt name with
  | some _ => false
  | none => containsKeywords name ["one", "shot"] || containsKeywords sub ["one", "shot"]

/-- `_is_extra` from `exporter_base.py`: name stripped of `#` equals "ex". -/
def isExtraChapter (name : String) : Bool :=
  lowerStr (String.mk (((name.toList.dropWhile (fun c => c == '#')).reverse.dropWhile
    (fun c => c == '#')).reverse)) == "ex"

/-- Python `f"{x:0>3}"`: left-pad the rendered value with `0` to width 3. -/
def padTo3 (s : String) : String :=
  String.mk (List.replicate (3 - s.length) '0') ++ s

/-- `Language` enum from `constants.py`. -/
inductive PyLanguage where
  | english
  | spanish
  | french
  | indonesian
  | portuguese
  | russian
  | thai
  | german
  | vietnamese
  deriving DecidableEq, Repr

/-- `Language(language).name`. -/
def PyLanguage.pyName : PyLanguage → String
  | .english => "ENGLISH"
  | .spanish => "SPANISH"
  | .french => "FRENCH"
  | .indonesian => "INDONESIAN"
  | .portuguese => "PORTUGUESE"
  | .russian => "RUSSIAN"
  | .thai => "THAI"
  | .german => "GERMAN"
  | .vietnamese => "VIETNAMESE"

/-- `Title` fields consumed by the exporter base class. -/
structure PbTitle where
  name : String
  language : PyLanguage
  author : String

/-- `Chapter` fields consumed by the exporter base class. -/
structure PbChapter where
  name : String
  sub_title : String

/-- Chapter-number letter: `"c" if chapter_number < 1000 else "d"`. -/
def letterFor (n : Int) : String := if n < 1000 then "c" else "d"

/-- `_format_chapter_prefix` from `exporter_base.py`. -/
def chapterLead (titleName chapterNameRaw : String) (lang : PyLanguage)
    (nextChapterName : Option String) (oneshot extra : Bool) : String :=
  let nextTruthy := match nextChapterName with
    | some s => !(s == "")
    | none => false
  let step :=
    if oneshot then ("", some (0 : Int), "")
    else if extra && nextTruthy then
      match nextChapterName with
      | some nx =>
        match chapterNameToInt nx with
        | some n => (letterFor (n - 1), some (n - 1), "x1")
        | none => ("", (none : Option Int), "x1")
      | none => ("", (none : Option Int), "")
    else
      match chapterNameToInt chapterNameRaw with
      | some n => (letterFor n, some n, "")
      | none => ("", (none : Option Int), "")
  let numStr := match step.2.1 with
    | some n => padTo3 (toString n)
    | none => escapePath chapterNameRaw
  String.intercalate " "
    ([titleName] ++
      (if lang = PyLanguage.english then [] else ["[" ++ lang.pyName ++ "]"]) ++
      ["-", step.1 ++ numStr ++ step.2.2, "(web)"])

/-- `_format_chapter_suffix` from `exporter_base.py`. -/
def chapterTrail (oneshot addChapterTitle : Bool) (sub_title : String) : String :=
  String.intercalate " "
    ((if oneshot then ["[Oneshot]"] else []) ++
      (if addChapterTitle then ["[" ++ escapePath sub_title ++ "]"] else []) ++
      ["[Unknown]"])

/-- `self.chapter_name` as computed by `ExporterBase.__init__`. -/
def exporterChapterName (title : PbTitle) (chapter : PbChapter)
    (nextChapter : Option PbChapter) (addChapterTitle : Bool) : String :=
  let titleName := pyTitle (escapePath title.name)
  let oneshot := isOneshot chapter.name chapter.sub_title
  let extra := isExtraChapter chapter.name
  chapterLead titleName chapter.name title.language (nextChapter.map (fun c => c.name))
      oneshot extra
    ++ " " ++ chapterTrail oneshot addChapterTitle chapter.sub_title

/-- Stem of `Path(name).with_suffix(".cbz")`: the name up to its last dot
when one exists, the whole name otherwise. -/
def pathStem (s : String) : String :=
  let cs := s.toList
  if cs.contains '.' then
    String.mk (((cs.reverse.dropWhile (fun c => !(c == '.'))).drop 1).reverse)
  else s

/-- Stem of the output file `CBZExporter.__init__` creates:
`base_path.joinpath(self.chapter_name).with_suffix(".cbz")`. -/
def cbzOutputStem (title : PbTitle) (chapter : PbChapter)
    (nextChapter : Option PbChapter) (addChapterTitle : Bool) : String :=
  pathStem (exporterChapterName title chapter nextChapter addChapterTitle)

/-- `ChapterPlanner.build_expected_filename` from `services.py`. -/
def buildExpectedFilename (titleName chapterObjName sub_title : String) : String :=
  escapePath titleName ++ " - " ++
    escapePath (String.mk (pyStripWs (chapterObjName.toList.dropWhile (fun c => c == '#'))))
    ++ " - " ++ escapePath sub_title

/-- C4: at title "Demo", chapter named "#1", subtitle "Sub", the planner's
`build_expected_filename` returns the sanitized stem "Demo - 1 - Sub" as
specified, but the CBZ exporter writes its archive under the stem
"Demo - c001 (web) [Unknown]" (from `_format_chapter_prefix` /
`_format_chapter_suffix`), so the planner's stem is NOT the stem the exporter
produces and the on-disk existence check can never match an exporter output. -/
theorem planner_stem_differs_from_exporter_stem :
    buildExpectedFilename "Demo" "#1" "Sub" = "Demo - 1 - Sub" ∧
    cbzOutputStem ⟨"Demo", PyLanguage.english, "A"⟩ ⟨"#1", "Sub"⟩ none false =
      "Demo - c001 (web) [Unknown]" ∧
    buildExpectedFilename "Demo" "#1" "Sub" ≠
      cbzOutputStem ⟨"Demo", PyLanguage.english, "A"⟩ ⟨"#1", "Sub"⟩ none false :=
  ⟨rfl, rfl, by decide⟩

/-! ## Manifest persistence (`manga_loader/manifest.py`) -/

/-- JSON-like values as produced by `json.loads`. -/
inductive JV where
  | null
  | bool (b : Bool)
  | int (n : Int)
  | str (s : String)
  | arr (items : List JV)
  | dict (fields : List (String × JV))

/-- Python `dict.get(key)` on a string-keyed association list. -/
def assocGet {β : Type} (l : List (String × β)) (k : String) : Option β :=
  (List.find? (fun p => p.1 == k) l).map Prod.snd

/-- Python `dict[key] = value`: replace in place if present, append otherwise. -/
def assocSet {β : Type} : List (String × β) → String → β → List (String × β)
  | [], k, v => [(k, v)]
  | (k', v') :: rest, k, v =>
    if k' == k then (k, v) :: rest else (k', v') :: assocSet rest k v

/-- `payload.get(key)` on a JSON value (only dicts have keys). -/
def jvGet : JV → String → Option JV
  | .dict fs, k => assocGet fs k
  | _, _ => none

/-- One manifest chapter entry, a flat JSON dict. -/
abbrev ManifestEntry : Type := List (String × JV)

/-- The chapter-state map, keyed by `str(chapter_id)`. -/
abbrev ManifestChapters : Type := List (String × ManifestEntry)

/-- `_coerce_chapter_entries` applied to a JSON value: keep only dict-valued
entries of a dict payload, anything else yields the empty map. -/
def coerceEntriesJ : JV → ManifestChapters
  | .dict fs => fs.filterMap (fun p =>
      match p.2 with
      | .dict e => some (p.1, e)
      | _ => none)
  | _ => []

/-- `_coerce_chapter_entries` applied to a `payload.get(...)` result. -/
def coerceEntries : Option JV → ManifestChapters
  | some j => coerceEntriesJ j
  | none => []

/-- `MANIFEST_SCHEMA` constant. -/
def MANIFEST_SCHEMA : String := "mloader.title_download_manifest"

/-- `MANIFEST_VERSION` constant. -/
def MANIFEST_VERSION : Int := 2

/-- Re-embed a chapter map as the JSON value stored under `"chapters"`. -/
def chaptersToJV (cs : ManifestChapters) : JV :=
  JV.dict (cs.map (fun p => (p.1, JV.dict p.2)))

/-- `_migrate_v0_to_v1`: when no dict entries live under `"chapters"`, the
whole payload is read as the legacy chapter map. -/
def migrateV0toV1 (p : JV) : JV :=
  JV.dict [("version", JV.int 1),
    ("chapters", chaptersToJV
      (if (coerceEntries (jvGet p "chapters")).isEmpty then coerceEntriesJ p
        else coerceEntries (jvGet p "chapters")))]

/-- `_migrate_v1_to_v2`. -/
def migrateV1toV2 (p : JV) : JV :=
  JV.dict [("version", JV.int 2), ("schema", JV.str MANIFEST_SCHEMA),
    ("chapters", chaptersToJV (coerceEntries (jvGet p "chapters")))]

/-- `MANIFEST_MIGRATIONS`, one pure migration step per version gap. -/
def MANIFEST_MIGRATIONS (v : Nat) : Option (JV → JV) :=
  if v = 0 then some migrateV0toV1
  else if v = 1 then some migrateV1toV2
  else none

/-- The `while version < MANIFEST_VERSION` migration loop of
`_normalize_payload`: a missing migration step fails closed to empty state. -/
def normalizeLoop (v : Nat) (p : JV) (migrated : Bool) : ManifestChapters × Bool :=
  if h : v < 2 then
    match MANIFEST_MIGRATIONS v with
    | none => ([], false)
    | some f => normalizeLoop (v + 1) (f p) true
  else (coerceEntries (jvGet p "chapters"), migrated)
termination_by 2 - v
decreasing_by omega

/-- The `version if isinstance(version, int) and version >= 0 else 0` read of
`_normalize_payload`. Python `bool` is an `int` subclass, so boolean version
fields count as 0 or 1. -/
def payloadVersion (p : JV) : Int :=
  match jvGet p "version" with
  | some (.int n) => if 0 ≤ n then n else 0
  | some (.bool b) => if b then 1 else 0
  | _ => 0

/-- `_normalize_payload`: versions above `MANIFEST_VERSION` are read
best-effort without migration; otherwise run the migration chain. -/
def normalizePayload (p : JV) : ManifestChapters × Bool :=
  if MANIFEST_VERSION < payloadVersion p then (coerceEntries (jvGet p "chapters"), false)
  else normalizeLoop (payloadVersion p).toNat p false

/-- Read outcomes of the manifest file that `_load_unlocked` survives, backing
the persistence state machine below: absent file, a CAUGHT read/parse failure
(`readError` stands for the `OSError` and `json.JSONDecodeError` cases the
`except` clause handles), or a parsed JSON document. This is not the full
on-disk condition space: a file that exists but is not valid UTF-8 makes
`read_text(encoding="utf-8")` raise `UnicodeDecodeError`, which the handler
does not catch — that condition is `ManifestFileCondition.badUtf8` below and
never reaches the in-memory state. -/
inductive DiskFile where
  | missing
  | readError
  | parsed (j : JV)

/-- The surviving paths of `_load_unlocked` as a pure function from the read
outcome to the in-memory chapter state and dirty flag. The full read path,
including the uncaught `UnicodeDecodeError` on a non-UTF-8 file, is
`loadUnlockedRead` below. -/
def loadChapters : DiskFile → ManifestChapters × Bool
  | .missing => ([], false)
  | .readError => ([], false)
  | .parsed j =>
    match j with
    | .dict fs => normalizePayload (JV.dict fs)
    | _ => ([], false)

/-- Raw on-disk condition of the manifest file, including the one
`_load_unlocked` does NOT survive: the file exists but its bytes are not
valid UTF-8, so `read_text(encoding="utf-8")` raises `UnicodeDecodeError` (a
`ValueError`), which `except (OSError, json.JSONDecodeError)` does not catch. -/
inductive ManifestFileCondition where
  | missing
  | osError
  | badUtf8
  | badJson
  | payload (j : JV)

/-- The full read path of `_load_unlocked` over the raw on-disk conditions:
missing files and the caught `OSError` / `json.JSONDecodeError` failures
degrade to empty state, a decoded JSON document is normalized via
`loadChapters`, but a non-UTF-8 file raises — `Except.error` models the
`UnicodeDecodeError` escaping the function. -/
def loadUnlockedRead : ManifestFileCondition → Except String (ManifestChapters × Bool)
  | .missing => Except.ok ([], false)
  | .osError => Except.ok ([], false)
  | .badUtf8 => Except.error "UnicodeDecodeError"
  | .badJson => Except.ok ([], false)
  | .payload j => Except.ok (loadChapters (DiskFile.parsed j))

/-- The payload `_save_unlocked` writes. -/
def savePayload (cs : ManifestChapters) : JV :=
  JV.dict [("version", JV.int MANIFEST_VERSION), ("schema", JV.str MANIFEST_SCHEMA),
    ("chapters", chaptersToJV cs)]

mutual

/-- Python `==` on JSON values (structural; manifest entries are flat). -/
def jvBeq : JV → JV → Bool
  | .null, .null => true
  | .bool a, .bool b => a == b
  | .int a, .int b => a == b
  | .str a, .str b => a == b
  | .arr xs, .arr ys => jvListBeq xs ys
  | .dict xs, .dict ys => jvFieldsBeq xs ys
  | _, _ => false

/-- Python `==` on JSON arrays. -/
def jvListBeq : List JV → List JV → Bool
  | [], [] => true
  | x :: xs, y :: ys => jvBeq x y && jvListBeq xs ys
  | _, _ => false

/-- Elementwise comparison of dict fields. -/
def jvFieldsBeq : List (String × JV) → List (String × JV) → Bool
  | [], [] => true
  | (ka, va) :: xs, (kb, vb) :: ys => ka == kb && jvBeq va vb && jvFieldsBeq xs ys
  | _, _ => false

end

/-- Python `==` on two entry dicts: key-order-insensitive comparison over the
union of the keys. -/
def entryEqB (a b : ManifestEntry) : Bool :=
  (a.map Prod.fst ++ b.map Prod.fst).all (fun k =>
    match assocGet a k, assocGet b k with
    | some x, some y => jvBeq x y
    | none, none => true
    | _, _ => false)

/-- In-memory manifest state plus the on-disk manifest file it is backed by. -/
structure ManifestState where
  chapters : ManifestChapters
  dirty : Bool
  disk : DiskFile

/-- `_save_unlocked`: atomically replace the on-disk payload, clear dirty. -/
def saveUnlocked (s : ManifestState) : ManifestState :=
  { s with disk := DiskFile.parsed (savePayload s.chapters), dirty := false }

/-- `_load_unlocked` as a state transformer: replace in-memory chapters from
disk; a migrated payload is re-saved at once in autosave mode. -/
def loadUnlocked (autosave : Bool) (s : ManifestState) : ManifestState :=
  let r := loadChapters s.disk
  let s1 : ManifestState := { s with chapters := r.1, dirty := r.2 }
  if r.2 && autosave then saveUnlocked s1 else s1

/-- `flush`: persist only when dirty. -/
def flushManifest (s : ManifestState) : ManifestState :=
  if s.dirty then saveUnlocked s else s

/-- `reset`: clear in-memory state and delete the on-disk file. -/
def resetManifest (_s : ManifestState) : ManifestState :=
  { chapters := [], dirty := false, disk := DiskFile.missing }

/-- `entry.update(updates)`: merge the update dict into the entry. -/
def entryUpdate (e updates : ManifestEntry) : ManifestEntry :=
  updates.foldl (fun acc kv => assocSet acc kv.1 kv.2) e

/-- `_mark_entry`: merge an update into chapter `str(c)` (the stored entry, or
`{"chapter_id": c}` when absent); skip entirely when the merged entry equals
the stored one (`None == entry` is false, so an absent entry is written);
autosave mode re-reads state from disk under the lock before merging and
writes back at once, manual mode only mutates the in-memory state and marks it
dirty. -/
def markEntry (autosave : Bool) (c : Nat) (updates : ManifestEntry)
    (s : ManifestState) : ManifestState :=
  if autosave then
    match assocGet (loadUnlocked true s).chapters (toString c) with
    | some old =>
      if entryEqB old (entryUpdate old updates) then loadUnlocked true s
      else saveUnlocked { loadUnlocked true s with
        chapters := assocSet (loadUnlocked true s).chapters (toString c)
          (entryUpdate old updates),
        dirty := true }
    | none =>
      saveUnlocked { loadUnlocked true s with
        chapters := assocSet (loadUnlocked true s).chapters (toString c)
          (entryUpdate [("chapter_id", JV.int c)] updates),
        dirty := true }
  else
    match assocGet s.chapters (toString c) with
    | some old =>
      if entryEqB old (entryUpdate old updates) then s
      else { s with
        chapters := assocSet s.chapters (toString c) (entryUpdate old updates),
        dirty := true }
    | none =>
      { s with
        chapters := assocSet s.chapters (toString c)
          (entryUpdate [("chapter_id", JV.int c)] updates),
        dirty := true }

/-- Update dict of `mark_started`. -/
def markStartedUpdates (c : Nat) (chapter_name sub_title output_format now : String) :
    ManifestEntry :=
  [("chapter_id", JV.int c), ("chapter_name", JV.str chapter_name),
    ("sub_title", JV.str sub_title), ("output_format", JV.str output_format),
    ("status", JV.str "in_progress"), ("started_at", JV.str now),
    ("completed_at", JV.null), ("failed_at", JV.null), ("error", JV.null)]

/-- Update dict of `mark_completed` (`output_path` only when truthy). -/
def markCompletedUpdates (c : Nat) (now : String) (output_path : Option String) :
    ManifestEntry :=
  [("chapter_id", JV.int c), ("status", JV.str "completed"),
    ("completed_at", JV.str now), ("failed_at", JV.null), ("error", JV.null)] ++
  (match output_path with
    | some p => if p == "" then [] else [("output_path", JV.str p)]
    | none => [])

/-- Update dict of `mark_failed`. -/
def markFailedUpdates (c : Nat) (err now : String) : ManifestEntry :=
  [("chapter_id", JV.int c), ("status", JV.str "failed"),
    ("failed_at", JV.str now), ("error", JV.str err)]

/-- `mark_started` (`now` is the `_utc_timestamp()` value). -/
def markStarted (autosave : Bool) (c : Nat)
    (chapter_name sub_title output_format now : String) (s : ManifestState) :
    ManifestState :=
  markEntry autosave c (markStartedUpdates c chapter_name sub_title output_format now) s

/-- `mark_completed`. -/
def markCompleted (autosave : Bool) (c : Nat) (now : String)
    (output_path : Option String) (s : ManifestState) : ManifestState :=
  markEntry autosave c (markCompletedUpdates c now output_path) s

/-- `mark_failed`. -/
def markFailed (autosave : Bool) (c : Nat) (err now : String) (s : ManifestState) :
    ManifestState :=
  markEntry autosave c (markFailedUpdates c err now) s

/-- `is_completed`. -/
def isCompleted (s : ManifestState) (c : Nat) : Bool :=
  match assocGet s.chapters (toString c) with
  | none => false
  | some e =>
    match assocGet e "status" with
    | some (JV.str st) => st == "completed"
    | _ => false

theorem assocGet_as_cacheLookup {β : Type} (l : List (String × β)) (k : String) :
    assocGet l k = cacheLookup l k := rfl

theorem assocGet_assocSet_ne {β : Type} (k k' : String) (v : β) (h : k' ≠ k) :
    ∀ l : List (String × β), assocGet (assocSet l k v) k' = assocGet l k' := by
  intro l
  induction l with
  | nil =>
    show assocGet [(k, v)] k' = assocGet ([] : List (String × β)) k'
    rw [assocGet_as_cacheLookup, assocGet_as_cacheLookup]
    exact cacheLookup_cons_of_ne (k, v) [] k' (fun he => h he.symm)
  | cons x t ih =>
    obtain ⟨xk, xv⟩ := x
    by_cases hx : xk = k
    · have hstep : assocSet ((xk, xv) :: t) k v = (k, v) :: t := by
        simp only [assocSet]
        rw [if_pos (beq_iff_eq.mpr hx)]
      rw [hstep, assocGet_as_cacheLookup, assocGet_as_cacheLookup,
        cacheLookup_cons_of_ne (k, v) t k' (fun he => h he.symm),
        cacheLookup_cons_of_ne (xk, xv) t k' (fun he => h (he.symm.trans hx))]
    · have hstep : assocSet ((xk, xv) :: t) k v = (xk, xv) :: assocSet t k v := by
        simp only [assocSet]
        rw [if_neg (fun hcontra => hx (beq_iff_eq.mp hcontra))]
      rw [hstep]
      by_cases hk' : xk = k'
      · rw [assocGet_as_cacheLookup, assocGet_as_cacheLookup,
          cacheLookup_cons_of_eq (xk, xv) _ k' hk', cacheLookup_cons_of_eq (xk, xv) t k' hk']
      · rw [assocGet_as_cacheLookup, assocGet_as_cacheLookup,
          cacheLookup_cons_of_ne (xk, xv) _ k' hk', cacheLookup_cons_of_ne (xk, xv) t k' hk']
        rw [← assocGet_as_cacheLookup, ← assocGet_as_cacheLookup]
        exact ih

theorem markEntry_frame_manual (c : Nat) (updates : ManifestEntry)
    (s : ManifestState) (k' : String) (h : k' ≠ toString c) :
    (markEntry false c updates s).disk = s.disk ∧
    assocGet (markEntry false c updates s).chapters k' = assocGet s.chapters k' := by
  unfold markEntry
  rw [if_neg (by simp)]
  cases ho : assocGet s.chapters (toString c) with
  | none =>
    exact ⟨rfl, assocGet_assocSet_ne (toString c) k' _ h s.chapters⟩
  | some old =>
    dsimp only
    by_cases he : entryEqB old (entryUpdate old updates) = true
    · rw [if_pos he]
      exact ⟨rfl, rfl⟩
    · rw [if_neg he]
      exact ⟨rfl, assocGet_assocSet_ne (toString c) k' _ h s.chapters⟩

theorem markEntry_frame_autosave (c : Nat) (updates : ManifestEntry)
    (s : ManifestState) (k' : String) (h : k' ≠ toString c) :
    assocGet (markEntry true c updates s).chapters k' =
      assocGet (loadUnlocked true s).chapters k' := by
  unfold markEntry
  rw [if_pos rfl]
  cases ho : assocGet (loadUnlocked true s).chapters (toString c) with
  | none =>
    exact assocGet_assocSet_ne (toString c) k' _ h (loadUnlocked true s).chapters
  | some old =>
    dsimp only
    by_cases he : entryEqB old (entryUpdate old updates) = true
    · rw [if_pos he]
    · rw [if_neg he]
      exact assocGet_assocSet_ne (toString c) k' _ h (loadUnlocked true s).chapters

/-- C10: every mark operation on chapter `c` modifies at most the entry stored
under key `str(c)`: in manual mode all other chapters' entries are unchanged
relative to the in-memory state and no disk write occurs (flush/save are
needed for that); in autosave mode all other chapters' entries are unchanged
relative to the state re-read from disk under the lock. -/
theorem manifest_mark_frame_property (c : Nat) (k' : String) (h : k' ≠ toString c)
    (s : ManifestState) (nm sub fmt now err : String) (op : Option String) :
    ((markStarted false c nm sub fmt now s).disk = s.disk ∧
      assocGet (markStarted false c nm sub fmt now s).chapters k' =
        assocGet s.chapters k') ∧
    ((markCompleted false c now op s).disk = s.disk ∧
      assocGet (markCompleted false c now op s).chapters k' =
        assocGet s.chapters k') ∧
    ((markFailed false c err now s).disk = s.disk ∧
      assocGet (markFailed false c err now s).chapters k' =
        assocGet s.chapters k') ∧
    (assocGet (markStarted true c nm sub fmt now s).chapters k' =
      assocGet (loadUnlocked true s).chapters k') ∧
    (assocGet (markCompleted true c now op s).chapters k' =
      assocGet (loadUnlocked true s).chapters k') ∧
    (assocGet (markFailed true c err now s).chapters k' =
      assocGet (loadUnlocked true s).chapters k') :=
  ⟨markEntry_frame_manual c _ s k' h,
    markEntry_frame_manual c _ s k' h,
    markEntry_frame_manual c _ s k' h,
    markEntry_frame_autosave c _ s k' h,
    markEntry_frame_autosave c _ s k' h,
    markEntry_frame_autosave c _ s k' h⟩

/-- Witness: marking chapter 5 in a fresh manual-mode manifest neither touches
the entry of chapter 7 nor the on-disk file. -/
theorem manifest_mark_frame_property_witness :
    (markStarted false 5 "name" "sub" "cbz" "t0"
      ⟨[], false, DiskFile.missing⟩).disk = DiskFile.missing ∧
    assocGet (markStarted false 5 "name" "sub" "cbz" "t0"
      ⟨[], false, DiskFile.missing⟩).chapters "7" = none :=
  ⟨(manifest_mark_frame_property 5 "7" (by decide)
      ⟨[], false, DiskFile.missing⟩ "name" "sub" "cbz" "t0" "e" none).1.1,
    (manifest_mark_frame_property 5 "7" (by decide)
      ⟨[], false, DiskFile.missing⟩ "name" "sub" "cbz" "t0" "e" none).1.2⟩

theorem coerce_chaptersToJV (cs : ManifestChapters) :
    coerceEntriesJ (chaptersToJV cs) = cs := by
  induction cs with
  | nil => rfl
  | cons p rest ih =>
    obtain ⟨k, e⟩ := p
    simp only [chaptersToJV, List.map_cons, coerceEntriesJ, List.filterMap_cons] at *
    simpa using ih

/-- C5: manifest loading is NOT total over the on-disk conditions: a manifest
file whose bytes are not valid UTF-8 makes `_load_unlocked` raise
`UnicodeDecodeError` (uncaught by `except (OSError, json.JSONDecodeError)`)
instead of degrading to empty state. The remaining conditions behave as
claimed: a missing file, a caught read failure, unparsable JSON and a
non-dict payload each load as empty state, and a payload whose version is
greater than `MANIFEST_VERSION` has its chapter entries extracted best-effort
with no migration applied. -/
theorem manifest_load_raises_on_non_utf8 :
    loadUnlockedRead ManifestFileCondition.badUtf8 =
      Except.error "UnicodeDecodeError" ∧
    (∀ r : ManifestChapters × Bool,
      loadUnlockedRead ManifestFileCondition.badUtf8 ≠ Except.ok r) ∧
    loadUnlockedRead ManifestFileCondition.missing = Except.ok ([], false) ∧
    loadUnlockedRead ManifestFileCondition.osError = Except.ok ([], false) ∧
    loadUnlockedRead ManifestFileCondition.badJson = Except.ok ([], false) ∧
    (∀ j : JV, (∀ fs, j ≠ JV.dict fs) →
      loadUnlockedRead (ManifestFileCondition.payload j) = Except.ok ([], false)) ∧
    (∀ (fs : List (String × JV)) (n : Int),
      assocGet fs "version" = some (JV.int n) → MANIFEST_VERSION < n →
      loadUnlockedRead (ManifestFileCondition.payload (JV.dict fs)) =
        Except.ok (coerceEntries (assocGet fs "chapters"), false)) := by
  refine ⟨rfl, ?_, rfl, rfl, rfl, ?_, ?_⟩
  · intro r h
    exact Except.noConfusion h
  · intro j hj
    show Except.ok (loadChapters (DiskFile.parsed j)) = Except.ok ([], false)
    cases j with
    | dict fs => exact absurd rfl (hj fs)
    | null => rfl
    | bool b => rfl
    | int n => rfl
    | str s => rfl
    | arr xs => rfl
  · intro fs n hv hn
    show Except.ok (loadChapters (DiskFile.parsed (JV.dict fs))) = _
    have hload : loadChapters (DiskFile.parsed (JV.dict fs)) =
        (coerceEntries (assocGet fs "chapters"), false) := by
      show normalizePayload (JV.dict fs) = _
      have hver : payloadVersion (JV.dict fs) = n := by
        unfold payloadVersion
        rw [show jvGet (JV.dict fs) "version" = some (JV.int n) from hv]
        have h0 : (0 : Int) ≤ n := by
          unfold MANIFEST_VERSION at hn
          omega
        simp [h0]
      unfold normalizePayload
      rw [hver, if_pos hn]
      rfl
    rw [hload]

/-- Witness: a version-3 payload loads its dict-valued chapter entries without
migration, a bare string payload loads as empty state, and the non-UTF-8 file
yields no loaded state at all. -/
theorem manifest_load_raises_on_non_utf8_witness :
    loadUnlockedRead (ManifestFileCondition.payload (JV.dict
      [("version", JV.int 3), ("chapters", JV.dict [("7", JV.dict [])])])) =
      Except.ok (coerceEntries (assocGet
        [("version", JV.int 3), ("chapters", JV.dict [("7", JV.dict [])])]
        "chapters"), false) ∧
    loadUnlockedRead ManifestFileCondition.badUtf8 ≠ Except.ok ([], false) ∧
    loadUnlockedRead (ManifestFileCondition.payload (JV.str "garbage")) =
      Except.ok ([], false) :=
  ⟨manifest_load_raises_on_non_utf8.2.2.2.2.2.2
      [("version", JV.int 3), ("chapters", JV.dict [("7", JV.dict [])])] 3 rfl
      (by decide),
    manifest_load_raises_on_non_utf8.2.1 ([], false),
    manifest_load_raises_on_non_utf8.2.2.2.2.2.1
      (JV.str "garbage") (fun fs h => JV.noConfusion h)⟩

theorem normalizeLoop_step (v : Nat) (p : JV) (b : Bool) (f : JV → JV)
    (hv : v < 2) (hm : MANIFEST_MIGRATIONS v = some f) :
    normalizeLoop v p b = normalizeLoop (v + 1) (f p) true := by
  rw [normalizeLoop, dif_pos hv, hm]

theorem normalizeLoop_exit (p : JV) (b : Bool) :
    normalizeLoop 2 p b = (coerceEntries (jvGet p "chapters"), b) := by
  rw [normalizeLoop, dif_neg (by omega)]

/-- C6: a version-0 (unversioned) chapter map, a version-1 payload and a
current-version payload holding the same chapter entries all load to the same
logical chapter-state map; the version-0 payload goes through the migration
chain `_migrate_v0_to_v1` then `_migrate_v1_to_v2`, one step per version gap;
and the saved payload always carries `version = MANIFEST_VERSION = 2` together
with the current schema string. -/
theorem manifest_migration_chain_equivalence (fs : List (String × JV))
    (hv : assocGet fs "version" = none) (hc : assocGet fs "chapters" = none) :
    ((loadChapters (DiskFile.parsed (JV.dict fs))).1 = coerceEntriesJ (JV.dict fs) ∧
      (loadChapters (DiskFile.parsed (JV.dict fs))).1 =
        coerceEntries (jvGet (migrateV1toV2 (migrateV0toV1 (JV.dict fs))) "chapters") ∧
      (loadChapters (DiskFile.parsed (JV.dict
        [("version", JV.int 1), ("chapters", JV.dict fs)]))).1 =
        coerceEntriesJ (JV.dict fs) ∧
      (loadChapters (DiskFile.parsed (JV.dict
        [("version", JV.int 2), ("schema", JV.str MANIFEST_SCHEMA),
          ("chapters", JV.dict fs)]))).1 = coerceEntriesJ (JV.dict fs)) ∧
    (∀ cs : ManifestChapters,
      jvGet (savePayload cs) "version" = some (JV.int MANIFEST_VERSION) ∧
      jvGet (savePayload cs) "schema" = some (JV.str MANIFEST_SCHEMA)) := by
  have hmig0 : migrateV0toV1 (JV.dict fs) =
      JV.dict [("version", JV.int 1),
        ("chapters", chaptersToJV (coerceEntriesJ (JV.dict fs)))] := by
    unfold migrateV0toV1
    rw [show jvGet (JV.dict fs) "chapters" = none from hc]
    rfl
  have hmig1 : migrateV1toV2 (JV.dict [("version", JV.int 1),
      ("chapters", chaptersToJV (coerceEntriesJ (JV.dict fs)))]) =
      JV.dict [("version", JV.int 2), ("schema", JV.str MANIFEST_SCHEMA),
        ("chapters", chaptersToJV (coerceEntriesJ (JV.dict fs)))] := by
    unfold migrateV1toV2
    rw [show jvGet (JV.dict [("version", JV.int 1),
        ("chapters", chaptersToJV (coerceEntriesJ (JV.dict fs)))]) "chapters" =
      some (chaptersToJV (coerceEntriesJ (JV.dict fs))) from rfl]
    rw [show coerceEntries (some (chaptersToJV (coerceEntriesJ (JV.dict fs)))) =
      coerceEntriesJ (chaptersToJV (coerceEntriesJ (JV.dict fs))) from rfl]
    rw [coerce_chaptersToJV]
  have hv0 : loadChapters (DiskFile.parsed (JV.dict fs)) =
      (coerceEntriesJ (JV.dict fs), true) := by
    show normalizePayload (JV.dict fs) = _
    have hver : payloadVersion (JV.dict fs) = 0 := by
      unfold payloadVersion
      rw [show jvGet (JV.dict fs) "version" = none from hv]
    unfold normalizePayload
    rw [hver, if_neg (by decide)]
    show normalizeLoop 0 (JV.dict fs) false = _
    rw [normalizeLoop_step 0 _ false migrateV0toV1 (by omega) rfl,
      normalizeLoop_step 1 _ true migrateV1toV2 (by omega) rfl,
      normalizeLoop_exit, hmig0, hmig1]
    rw [show jvGet (JV.dict [("version", JV.int 2), ("schema", JV.str MANIFEST_SCHEMA),
        ("chapters", chaptersToJV (coerceEntriesJ (JV.dict fs)))]) "chapters" =
      some (chaptersToJV (coerceEntriesJ (JV.dict fs))) from rfl]
    show (coerceEntriesJ (chaptersToJV (coerceEntriesJ (JV.dict fs))), true) = _
    rw [coerce_chaptersToJV]
  have hv1 : loadChapters (DiskFile.parsed (JV.dict
      [("version", JV.int 1), ("chapters", JV.dict fs)])) =
      (coerceEntriesJ (JV.dict fs), true) := by
    show normalizePayload _ = _
    unfold normalizePayload
    rw [show payloadVersion (JV.dict [("version", JV.int 1), ("chapters", JV.dict fs)]) =
      1 from rfl]
    rw [if_neg (by decide)]
    show normalizeLoop 1 _ false = _
    rw [normalizeLoop_step 1 _ false migrateV1toV2 (by omega) rfl, normalizeLoop_exit]
    have hm : migrateV1toV2 (JV.dict [("version", JV.int 1), ("chapters", JV.dict fs)]) =
        JV.dict [("version", JV.int 2), ("schema", JV.str MANIFEST_SCHEMA),
          ("chapters", chaptersToJV (coerceEntriesJ (JV.dict fs)))] := by
      unfold migrateV1toV2
      rw [show jvGet (JV.dict [("version", JV.int 1), ("chapters", JV.dict fs)])
          "chapters" = some (JV.dict fs) from rfl]
      rfl
    rw [hm]
    rw [show jvGet (JV.dict [("version", JV.int 2), ("schema", JV.str MANIFEST_SCHEMA),
        ("chapters", chaptersToJV (coerceEntriesJ (JV.dict fs)))]) "chapters" =
      some (chaptersToJV (coerceEntriesJ (JV.dict fs))) from rfl]
    show (coerceEntriesJ (chaptersToJV (coerceEntriesJ (JV.dict fs))), true) = _
    rw [coerce_chaptersToJV]
  have hv2 : loadChapters (DiskFile.parsed (JV.dict
      [("version", JV.int 2), ("schema", JV.str MANIFEST_SCHEMA),
        ("chapters", JV.dict fs)])) = (coerceEntriesJ (JV.dict fs), false) := by
    show normalizePayload _ = _
    unfold normalizePayload
    rw [show payloadVersion (JV.dict [("version", JV.int 2),
      ("schema", JV.str MANIFEST_SCHEMA), ("chapters", JV.dict fs)]) = 2 from rfl]
    rw [if_neg (by decide)]
    show normalizeLoop 2 _ false = _
    rw [normalizeLoop_exit]
    rfl
  refine ⟨⟨by rw [hv0], ?_, by rw [hv1], by rw [hv2]⟩, ?_⟩
  · rw [hv0, hmig0, hmig1]
    show coerceEntriesJ (JV.dict fs) =
      coerceEntriesJ (chaptersToJV (coerceEntriesJ (JV.dict fs)))
    rw [coerce_chaptersToJV]
  · intro cs
    exact ⟨rfl, rfl⟩

/-- Witness: a concrete one-chapter map stored in the version-0, version-1 and
version-2 layouts loads identically, and the saved payload carries the current
version and schema fields. -/
theorem manifest_migration_chain_equivalence_witness :
    (loadChapters (DiskFile.parsed (JV.dict
      [("7", JV.dict [("status", JV.str "completed")])]))).1 =
      coerceEntriesJ (JV.dict [("7", JV.dict [("status", JV.str "completed")])]) ∧
    jvGet (savePayload [("7", [("status", JV.str "completed")])]) "version" =
      some (JV.int MANIFEST_VERSION) :=
  ⟨(manifest_migration_chain_equivalence
      [("7", JV.dict [("status", JV.str "completed")])] rfl rfl).1.1,
    ((manifest_migration_chain_equivalence
      [("7", JV.dict [("status", JV.str "completed")])] rfl rfl).2
      [("7", [("status", JV.str "completed")])]).1⟩

/-! ## Download orchestration (`manga_loader/downloader.py`) -/

/-- Result of `_process_chapter` for one chapter: success, an `Exception`
caught by the per-chapter handler, or a `KeyboardInterrupt`-style
`BaseException` that the `except Exception` handler does not catch. -/
inductive PResult where
  | ok
  | err (msg : String)
  | intr
  deriving DecidableEq, Repr

/-- Whether a chapter processing result is a success. -/
def PResult.isOk : PResult → Bool
  | .ok => true
  | _ => false

/-- Whether a chapter processing result is a caught exception. -/
def PResult.isErr : PResult → Bool
  | .err _ => true
  | _ => false

/-- `_MutableDownloadSummary` counters. -/
structure RunSummary where
  downloaded : Nat
  skipped_manifest : Nat
  failed : Nat
  failed_chapter_ids : List Nat
  deriving DecidableEq, Repr

/-- The fresh summary `download` starts from. -/
def emptySummary : RunSummary := ⟨0, 0, 0, []⟩

/-- Python `sorted` on chapter IDs (insertion sort). -/
def insertSorted (c : Nat) : List Nat → List Nat
  | [] => [c]
  | x :: t => if c ≤ x then c :: x :: t else x :: insertSorted c t

/-- `sorted(chapters_to_download)`. -/
def sortChapters : List Nat → List Nat
  | [] => []
  | c :: t => insertSorted c (sortChapters t)

/-- The per-chapter loop of `_process_title`. `proc` is the outcome of
`_process_chapter` for each chapter and `procM` the manifest effect that call
performs itself (mark-started / mark-completed; applied only when resume is
active, mirroring `manifest if self.resume else None`). On `.err` the handler
marks the chapter failed in the (manual-mode) manifest, flushes, bumps the
failure counters and continues; a `.intr` escapes the loop uncaught. -/
def processChapters (resume : Bool) (proc : Nat → PResult)
    (procM : Nat → ManifestState → ManifestState) (now : String) :
    List Nat → RunSummary → ManifestState → RunSummary × ManifestState × Bool
  | [], s, m => (s, m, false)
  | c :: rest, s, m =>
    match proc c with
    | .ok =>
      processChapters resume proc procM now rest
        { s with downloaded := s.downloaded + 1 }
        (if resume then procM c m else m)
    | .err e =>
      processChapters resume proc procM now rest
        { s with
            failed := s.failed + 1
            failed_chapter_ids := s.failed_chapter_ids ++ [c] }
        (if resume then flushManifest (markFailed false c e now (procM c m))
          else m)
    | .intr => (s, (if resume then procM c m else m), true)

/-- Cache and manifest side effects traced across a download run. -/
inductive RunEvent where
  | clearRun
  | clearTitle (titleId : Nat)
  | flushTitle (titleId : Nat)
  deriving DecidableEq, Repr

/-- `_process_title` around its chapter loop: run the chapters in ascending
numeric order, then in a `finally` block flush the manifest when resume is
active and clear the title-scoped caches — also when the loop was interrupted. -/
def processTitle (resume : Bool) (proc : Nat → PResult)
    (procM : Nat → ManifestState → ManifestState) (now : String) (titleId : Nat)
    (chapters : List Nat) (s : RunSummary) (m : ManifestState) :
    RunSummary × ManifestState × Bool × List RunEvent :=
  match processChapters resume proc procM now (sortChapters chapters) s m with
  | (s', m', intr) =>
    (s', (if resume then flushManifest m' else m'), intr,
      (if resume then [RunEvent.flushTitle titleId] else []) ++
        [RunEvent.clearTitle titleId])

/-- `_download`: iterate the normalized titles; an escaping interrupt stops
the iteration (after the interrupted title's `finally` block ran). `initM` is
each title's manifest as loaded when `_process_title` opens it. -/
def downloadTitles (resume : Bool) (proc : Nat → PResult)
    (procM : Nat → ManifestState → ManifestState) (now : String)
    (initM : Nat → ManifestState) :
    List (Nat × List Nat) → RunSummary → RunSummary × Bool × List RunEvent
  | [], s => (s, false, [])
  | (tid, chs) :: rest, s =>
    match processTitle resume proc procM now tid chs s (initM tid) with
    | (s', _, intr, evs) =>
      if intr then (s', true, evs)
      else
        match downloadTitles resume proc procM now initM rest s' with
        | (s'', intr', evs') => (s'', intr', evs ++ evs')

/-- What `download` hands its caller in the source: a completed summary, or a
bare escaping interrupt — the source defines no interrupted-error type, so no
summary accompanies an interrupt. -/
inductive DownloadOutcome where
  | summary (s : RunSummary)
  | interrupt
  deriving DecidableEq, Repr

/-- `download` as written in the source: fresh summary, clear run caches, run
`_download` inside `try`, clear run caches again in `finally`; an interrupt
escapes unwrapped after cleanup, otherwise the summary is returned. -/
def downloadSrc (resume : Bool) (proc : Nat → PResult)
    (procM : Nat → ManifestState → ManifestState) (now : String)
    (initM : Nat → ManifestState) (titles : List (Nat × List Nat)) :
    DownloadOutcome × List RunEvent :=
  match downloadTitles resume proc procM now initM titles emptySummary with
  | (s, intr, evs) =>
    ((if intr then DownloadOutcome.interrupt else DownloadOutcome.summary s),
      [RunEvent.clearRun] ++ evs ++ [RunEvent.clearRun])

/-- Status field of chapter `c` in a manifest state. -/
def chapterStatus (s : ManifestState) (c : Nat) : Option JV :=
  match assocGet s.chapters (toString c) with
  | some e => assocGet e "status"
  | none => none

/-- Chapter outcome oracle of the A/B/C scenario: chapter 2 raises, 1 and 3
succeed. -/
def scenarioProc : Nat → PResult :=
  fun c => if c = 2 then PResult.err "boom" else PResult.ok

/-- Manifest effect of `_process_chapter` in the scenario: mark started, and
mark completed on success. -/
def scenarioProcM : Nat → ManifestState → ManifestState := fun c m =>
  match scenarioProc c with
  | .ok => markCompleted false c "t0" none (markStarted false c (toString c) "" "cbz" "t0" m)
  | _ => markStarted false c (toString c) "" "cbz" "t0" m

theorem processChapters_failed_inv (resume : Bool) (proc : Nat → PResult)
    (procM : Nat → ManifestState → ManifestState) (now : String) :
    ∀ (chs : List Nat) (s : RunSummary) (m : ManifestState),
      s.failed = s.failed_chapter_ids.length →
      (processChapters resume proc procM now chs s m).1.failed =
        (processChapters resume proc procM now chs s m).1.failed_chapter_ids.length := by
  intro chs
  induction chs with
  | nil => intro s m h; exact h
  | cons c rest ih =>
    intro s m h
    cases hp : proc c with
    | ok =>
      simp only [processChapters, hp]
      exact ih _ _ h
    | err e =>
      simp only [processChapters, hp]
      refine ih _ _ ?_
      simp only [List.length_append, List.length_cons, List.length_nil]
      omega
    | intr =>
      simp only [processChapters, hp]
      exact h

theorem processChapters_totals (resume : Bool) (proc : Nat → PResult)
    (procM : Nat → ManifestState → ManifestState) (now : String) :
    ∀ (chs : List Nat) (s : RunSummary) (m : ManifestState),
      (∀ c ∈ chs, proc c ≠ PResult.intr) →
      (processChapters resume proc procM now chs s m).1.downloaded =
        s.downloaded + (chs.filter (fun c => (proc c).isOk)).length ∧
      (processChapters resume proc procM now chs s m).1.failed =
        s.failed + (chs.filter (fun c => (proc c).isErr)).length ∧
      (processChapters resume proc procM now chs s m).1.failed_chapter_ids =
        s.failed_chapter_ids ++ chs.filter (fun c => (proc c).isErr) ∧
      (processChapters resume proc procM now chs s m).2.2 = false := by
  intro chs
  induction chs with
  | nil =>
    intro s m _
    refine ⟨?_, ?_, ?_, rfl⟩ <;> simp [processChapters]
  | cons c rest ih =>
    intro s m hni
    have hrest : ∀ x ∈ rest, proc x ≠ PResult.intr :=
      fun x hx => hni x (List.mem_cons_of_mem c hx)
    cases hp : proc c with
    | ok =>
      obtain ⟨h1, h2, h3, h4⟩ := ih { s with downloaded := s.downloaded + 1 }
        (if resume then procM c m else m) hrest
      refine ⟨?_, ?_, ?_, ?_⟩ <;>
        simp only [processChapters, hp, h1, h2, h3, h4, List.filter_cons, hp,
          PResult.isOk, PResult.isErr, List.length_cons] <;> simp <;> omega
    | err e =>
      obtain ⟨h1, h2, h3, h4⟩ := ih
        { s with
            failed := s.failed + 1
            failed_chapter_ids := s.failed_chapter_ids ++ [c] }
        (if resume then flushManifest (markFailed false c e now (procM c m)) else m)
        hrest
      refine ⟨?_, ?_, ?_, ?_⟩ <;>
        simp only [processChapters, hp, h1, h2, h3, h4, List.filter_cons,
          PResult.isOk, PResult.isErr, List.length_cons] <;> simp <;> omega
    | intr => exact absurd hp (hni c (List.mem_cons_self c rest))

theorem downloadTitles_failed_inv (resume : Bool) (proc : Nat → PResult)
    (procM : Nat → ManifestState → ManifestState) (now : String)
    (initM : Nat → ManifestState) :
    ∀ (titles : List (Nat × List Nat)) (s : RunSummary),
      s.failed = s.failed_chapter_ids.length →
      (downloadTitles resume proc procM now initM titles s).1.failed =
        (downloadTitles resume proc procM now initM titles s).1.failed_chapter_ids.length := by
  intro titles
  induction titles with
  | nil => intro s h; exact h
  | cons t rest ih =>
    obtain ⟨tid, chs⟩ := t
    intro s h
    have hinv := processChapters_failed_inv resume proc procM now
      (sortChapters chs) s (initM tid) h
    cases hr : processChapters resume proc procM now (sortChapters chs) s (initM tid) with
    | mk s' r2 =>
      obtain ⟨m', intr⟩ := r2
      have hinv' : s'.failed = s'.failed_chapter_ids.length := by
        rw [hr] at hinv
        exact hinv
      have hpt : processTitle resume proc procM now tid chs s (initM tid) =
          (s', (if resume then flushManifest m' else m'), intr,
            (if resume then [RunEvent.flushTitle tid] else []) ++
              [RunEvent.clearTitle tid]) := by
        unfold processTitle
        rw [hr]
      show (downloadTitles resume proc procM now initM ((tid, chs) :: rest) s).1.failed = _
      simp only [downloadTitles, hpt]
      cases intr with
      | true => simpa using hinv'
      | false =>
        have := ih s' hinv'
        cases hr2 : downloadTitles resume proc procM now initM rest s' with
        | mk s'' r3 =>
          obtain ⟨intr', evs'⟩ := r3
          rw [hr2] at this
          simpa [hr2] using this

/-- C3: a chapter whose processing raises is marked failed in the manifest,
bumps the failed counter, is appended to `failed_chapter_ids`, and the loop
continues with the next chapter; consequently `failed` always equals
`len(failed_chapter_ids)`, without interrupts the loop never aborts and counts
successes and failures exactly, and for requested chapters [1, 2, 3] where
only 2 fails the summary is downloaded=2, failed=1, failed_chapter_ids=[2]
with chapter 2 marked failed (and 1, 3 completed) in the manifest. -/
theorem chapter_failure_isolation (resume : Bool) (proc : Nat → PResult)
    (procM : Nat → ManifestState → ManifestState) (now : String)
    (chs : List Nat) (s : RunSummary) (m : ManifestState)
    (hinv : s.failed = s.failed_chapter_ids.length)
    (hni : ∀ c ∈ chs, proc c ≠ PResult.intr) :
    ((processChapters resume proc procM now chs s m).1.failed =
      (processChapters resume proc procM now chs s m).1.failed_chapter_ids.length) ∧
    (∀ (initM : Nat → ManifestState) (titles : List (Nat × List Nat)),
      (downloadTitles resume proc procM now initM titles emptySummary).1.failed =
        (downloadTitles resume proc procM now initM titles
          emptySummary).1.failed_chapter_ids.length) ∧
    ((processChapters resume proc procM now chs s m).1.downloaded =
        s.downloaded + (chs.filter (fun c => (proc c).isOk)).length ∧
      (processChapters resume proc procM now chs s m).1.failed =
        s.failed + (chs.filter (fun c => (proc c).isErr)).length ∧
      (processChapters resume proc procM now chs s m).1.failed_chapter_ids =
        s.failed_chapter_ids ++ chs.filter (fun c => (proc c).isErr) ∧
      (processChapters resume proc procM now chs s m).2.2 = false) ∧
    ((processChapters true scenarioProc scenarioProcM "t0" (sortChapters [1, 2, 3])
        emptySummary ⟨[], false, DiskFile.missing⟩).1 = ⟨2, 0, 1, [2]⟩ ∧
      chapterStatus (processChapters true scenarioProc scenarioProcM "t0"
        (sortChapters [1, 2, 3]) emptySummary ⟨[], false, DiskFile.missing⟩).2.1 2 =
        some (JV.str "failed") ∧
      chapterStatus (processChapters true scenarioProc scenarioProcM "t0"
        (sortChapters [1, 2, 3]) emptySummary ⟨[], false, DiskFile.missing⟩).2.1 1 =
        some (JV.str "completed") ∧
      chapterStatus (processChapters true scenarioProc scenarioProcM "t0"
        (sortChapters [1, 2, 3]) emptySummary ⟨[], false, DiskFile.missing⟩).2.1 3 =
        some (JV.str "completed")) :=
  ⟨processChapters_failed_inv resume proc procM now chs s m hinv,
    fun initM titles => downloadTitles_failed_inv resume proc procM now initM titles
      emptySummary rfl,
    processChapters_totals resume proc procM now chs s m hni,
    rfl, rfl, rfl, rfl⟩

/-- Witness: the A/B/C scenario summary, via the theorem at concrete inputs. -/
theorem chapter_failure_isolation_witness :
    (processChapters true scenarioProc scenarioProcM "t0" (sortChapters [1, 2, 3])
      emptySummary ⟨[], false, DiskFile.missing⟩).1 = ⟨2, 0, 1, [2]⟩ :=
  (chapter_failure_isolation true scenarioProc scenarioProcM "t0" [] emptySummary
    ⟨[], false, DiskFile.missing⟩ rfl (by intro c hc; cases hc)).2.2.2.1

/-- Chapter outcome oracle of the interrupt scenario: chapter 1 succeeds,
chapter 2 raises an exception, chapter 3 raises `KeyboardInterrupt`. -/
def intrProc : Nat → PResult :=
  fun c => if c = 2 then PResult.err "boom" else if c = 3 then PResult.intr
    else PResult.ok

/-- Manifest effect of `_process_chapter` in the interrupt scenario. -/
def intrProcM : Nat → ManifestState → ManifestState := fun c m =>
  match intrProc c with
  | .ok => markCompleted false c "t0" none (markStarted false c (toString c) "" "cbz" "t0" m)
  | _ => markStarted false c (toString c) "" "cbz" "t0" m

/-- C1: evaluation of the source's `download` at an interrupted run. Chapters
1 (downloaded) and 2 (failed) accumulate partial progress, then chapter 3 is
interrupted: the per-title `finally` (manifest flush, title cache clear) and
the run-scoped cache clears still execute, but the outcome is a bare escaping
interrupt that carries no summary — the partial summary (downloaded=1,
failed=1, failed_chapter_ids=[2]) accumulated before the interrupt is lost to
the caller, and no outcome of the source's `download` pairs an interrupt with
a summary. -/
theorem download_interrupt_drops_partial_summary :
    downloadSrc true intrProc intrProcM "t0" (fun _ => ⟨[], false, DiskFile.missing⟩)
      [(7, [3, 1, 2])] =
      (DownloadOutcome.interrupt,
        [RunEvent.clearRun, RunEvent.flushTitle 7, RunEvent.clearTitle 7,
          RunEvent.clearRun]) ∧
    (downloadTitles true intrProc intrProcM "t0"
      (fun _ => ⟨[], false, DiskFile.missing⟩) [(7, [3, 1, 2])] emptySummary).1 =
      ⟨1, 0, 1, [2]⟩ ∧
    (∀ s : RunSummary, DownloadOutcome.interrupt ≠ DownloadOutcome.summary s) :=
  ⟨rfl, rfl, fun _ h => DownloadOutcome.noConfusion h⟩

/-! ## Binary response parsing (`manga_loader/api.py`) -/

/-- Decoded `Response.success.manga_viewer` shape. Protobuf decoding never
fails on absent submessages: identity fields default to 0 and the page list to
empty, which is exactly the malformed shape in question. Page payloads are
opaque here. -/
structure MangaViewerPayload where
  title_id : Nat
  chapter_id : Nat
  pages : List Nat
  deriving DecidableEq, Repr

/-- Decoded `title` submessage of a title-detail payload. -/
structure TitleIdentity where
  title_id : Nat
  name : String
  deriving DecidableEq, Repr

/-- Decoded chapter group with its three chapter lists (opaque chapters). -/
structure ChapterListGroup where
  first_chapter_list : List Nat
  mid_chapter_list : List Nat
  last_chapter_list : List Nat
  deriving DecidableEq, Repr

/-- Decoded `Response.success.title_detail_view` shape. -/
structure TitleDetailPayload where
  title : TitleIdentity
  chapter_list_group : List ChapterListGroup
  deriving DecidableEq, Repr

/-- Decoded `Response.success` envelope. -/
structure SuccessPayload where
  manga_viewer : MangaViewerPayload
  title_detail_view : TitleDetailPayload
  deriving DecidableEq, Repr

/-- Decoded top-level `Response`. -/
structure PbResponse where
  success : SuccessPayload
  deriving DecidableEq, Repr

/-- `_parse_manga_viewer_response` as in the source: `Response.FromString`
followed by attribute access `parsed.success.manga_viewer` — no validation of
any kind, hence no code path that could raise `APIResponseError`. -/
def parseMangaViewerResponseSrc (r : PbResponse) : MangaViewerPayload :=
  r.success.manga_viewer

/-- `_parse_title_detail_response` as in the source:
`parsed.success.title_detail_view`, again with no validation. -/
def parseTitleDetailResponseSrc (r : PbResponse) : TitleDetailPayload :=
  r.success.title_detail_view

/-- A decoded response whose payloads are malformed in every way §4.1 rejects:
zero identity fields, empty name, no pages, no chapter groups. -/
def malformedResponse : PbResponse :=
  ⟨⟨⟨0, 0, []⟩, ⟨⟨0, ""⟩, []⟩⟩⟩

/-- C2: the source parse helpers perform no validation at the fetch boundary:
for every decoded response they return the contained payload unchanged, and in
particular the fully malformed response (zero `title_id`/`chapter_id`, no
pages, zero title id and empty name, no chapter groups) is handed to
downstream orchestration logic instead of raising `APIResponseError`. -/
theorem parse_performs_no_validation :
    (∀ r : PbResponse, parseMangaViewerResponseSrc r = r.success.manga_viewer) ∧
    (∀ r : PbResponse, parseTitleDetailResponseSrc r = r.success.title_detail_view) ∧
    (parseMangaViewerResponseSrc malformedResponse).title_id = 0 ∧
    (parseMangaViewerResponseSrc malformedResponse).chapter_id = 0 ∧
    (parseMangaViewerResponseSrc malformedResponse).pages = [] ∧
    (parseTitleDetailResponseSrc malformedResponse).title.title_id = 0 ∧
    (parseTitleDetailResponseSrc malformedResponse).title.name = "" ∧
    (parseTitleDetailResponseSrc malformedResponse).chapter_list_group = [] :=
  ⟨fun _ => rfl, fun _ => rfl, rfl, rfl, rfl, rfl, rfl, rfl⟩

end Mloader
